import Mathlib

/-
Verification of the font-merge engine (`src/font_merge/font_merger.py`) against
its natural-language specification.  The OpenType data the engine manipulates is
shallowly embedded: a font is a record of the tables and fields the engine
reads or writes (units per em, GSUB/GPOS layout tables, the name table, glyph
records, cmap entries, presence of a DSIG table, kerning/hinting data).  The
fontTools primitives the engine delegates to (Merger.merge, TTFont loading) are
abstracted as function parameters; the fontTools Subsetter is modelled from the
spec where noted.  File-system effects (temporary files, saves, deletions) are
made explicit as event traces.
-/

namespace FontMerge

/-- One entry of a GSUB/GPOS feature list: the 4-character feature tag of a
`FeatureRecord`, paired with an identifier standing for the `Feature` table
entry kept parallel to it by fontTools.  The engine always moves a record and
its feature together, so the two parallel lists are collapsed into one list of
pairs. -/
abbrev FeatureEntry := String × Nat

/-- The `FeatureList` of a GSUB/GPOS table: the record list plus the stored
`FeatureCount` field (which the engine recomputes explicitly, so it is kept as
a separate field rather than derived). -/
structure FeatureList where
  featureRecords : List FeatureEntry
  featureCount : Nat
  deriving DecidableEq

/-- A GSUB or GPOS layout table: an optional `FeatureList` (fontTools tables can
lack one) and the script list. -/
structure LayoutTable where
  featureList : Option FeatureList
  scripts : List String
  deriving DecidableEq

/-- One record of the `name` table. -/
structure NameRecord where
  nameID : Nat
  platformID : Nat
  platEncID : Nat
  langID : Nat
  value : List Char
  deriving DecidableEq

/-- A glyph: its glyph ID and its glyph name. -/
structure Glyph where
  gid : Nat
  name : List Char
  deriving DecidableEq

/-- The facets of a fontTools `TTFont` object that `font_merger.py` reads or
writes.  `upm = none` models a font without a `head` table; `gsub = none` /
`gpos = none` model missing tables; `cmap` maps code points to glyph IDs. -/
structure Font where
  upm : Option Nat
  gsub : Option LayoutTable
  gpos : Option LayoutTable
  nameTable : Option (List NameRecord)
  glyphs : List Glyph
  cmap : List (Nat × Nat)
  hasDSIG : Bool
  kernData : Bool
  hintingData : Bool
  deriving DecidableEq

/-! ## Ligature scorer (`_calculate_ligature_score`, lines 50-134) -/

/-- Per-feature-tag weight of the if/elif chain at lines 74-98. -/
def featureTagScore (tag : String) : Nat :=
  if tag = "liga" then 100
  else if tag = "dlig" then 50
  else if tag = "clig" then 50
  else if tag = "rlig" then 30
  else if tag = "calt" then 20
  else if tag ∈ ["kern", "curs"] then 10
  else if tag ∈ ["ss01", "ss02", "ss03", "ss04", "ss05",
                 "ss06", "ss07", "ss08", "ss09", "ss10"] then 5
  else 0

/-- The ligature-indicative glyph-name substrings of lines 108-119. -/
def ligaturePatterns : List (List Char) :=
  ["liga", "_", "arrow", "equal", "greater", "less",
   "ampersand", "at", "dollar", "percent"].map String.toList

/-- The check `any(pattern in glyph_name.lower() for pattern in [...])` at
lines 106-120. -/
def glyphNameIndicatesLigature (n : List Char) : Bool :=
  ligaturePatterns.any (fun p => decide (p <:+: n.map Char.toLower))

/-- The threshold bonus of lines 124-129. -/
def ligatureGlyphBonus (count : Nat) : Nat :=
  if count > 50 then 25
  else if count > 20 then 15
  else if count > 10 then 10
  else 0

/-- Model of `_calculate_ligature_score`: 0 without a GSUB feature list; otherwise the
tag-weight accumulation over the feature records plus the glyph-name bonus. -/
def calculateLigatureScore (f : Font) : Nat :=
  match f.gsub with
  | none => 0
  | some gt =>
    match gt.featureList with
    | none => 0
    | some fl =>
      let base := fl.featureRecords.foldl (fun s r => s + featureTagScore r.1) 0
      let ligatureGlyphs :=
        (f.glyphs.filter (fun g => glyphNameIndicatesLigature g.name)).length
      base + ligatureGlyphBonus ligatureGlyphs

/-! ## Automatic font ordering (`determine_optimal_font_order`, lines 17-48) -/

/-- Model of `determine_optimal_font_order`.  `load` abstracts `TTFont(path)`; a `none`
result models the constructor raising, which the source catches, returning the
original order unswapped.  Returns `(base, secondary, swapped)`. -/
def determineOptimalFontOrder (load : String → Option Font) (font1Path font2Path : String) :
    String × String × Bool :=
  match load font1Path, load font2Path with
  | some font1, some font2 =>
    if calculateLigatureScore font2 > calculateLigatureScore font1 then
      (font2Path, font1Path, true)
    else
      (font1Path, font2Path, false)
  | _, _ => (font1Path, font2Path, false)

/-! ## Subsetter (`_create_font_subset`, lines 206-263) -/

/-- The fontTools `Subsetter` options set at lines 242-254, named after the
source's option attributes (`layout_features = ["*"]` and
`layout_scripts = ["*"]` become the two `_all` flags; `name_IDs = ["*"]`
becomes `name_IDs_all`). -/
structure SubsetOptions where
  retain_gids : Bool
  notdef_outline : Bool
  recommended_glyphs : Bool
  name_IDs_all : Bool
  name_legacy : Bool
  layout_features_all : Bool
  layout_scripts_all : Bool
  glyph_names : Bool
  legacy_kern : Bool
  hinting : Bool
  deriving DecidableEq

/-- The exact option record `_create_font_subset` configures (lines 242-254):
every listed option is enabled. -/
def subsetterOptionsUsed : SubsetOptions :=
  { retain_gids := true
    notdef_outline := true
    recommended_glyphs := true
    name_IDs_all := true
    name_legacy := true
    layout_features_all := true
    layout_scripts_all := true
    glyph_names := true
    legacy_kern := true
    hinting := true }

/-- Strip the scripts of a layout table (what the fontTools subsetter does when
`layout_scripts` is not `["*"]` and a script is not selected). -/
def filterScripts (keepAll : Bool) : Option LayoutTable → Option LayoutTable
  | none => none
  | some t => some (if keepAll then t else { t with scripts := [] })

/-- Modelled from the spec: the names of the "recommended" glyphs the spec's
section 4.3 requires a subset to retain even when not selected (space, etc. —
the set fontTools adds under `recommended_glyphs`). -/
def recommendedGlyphNames : List (List Char) :=
  [".notdef", ".null", "CR", "space"].map String.toList

/-- Modelled from the spec: the fontTools `Subsetter.subset` primitive, which is
external to this repository (only its configuration is code under `src/`).
Per the spec (section 4.3), the subsetter keeps the glyphs reachable from the
selected code points, plus `.notdef` when `notdef_outline` is set and the
recommended glyphs (`.notdef`, space, etc., by glyph ID 0 or name) when
`recommended_glyphs` is set, renumbers glyph IDs unless `retain_gids` is set,
erases glyph names unless `glyph_names` is set, drops the layout tables unless
`layout_features = ["*"]` is set, strips scripts unless
`layout_scripts = ["*"]` is set, and drops kerning/hinting data unless
`legacy_kern`/`hinting` are set. -/
def subsetFont (opts : SubsetOptions) (f : Font) (unicodes : List Nat) : Font :=
  let keptCmap := f.cmap.filter (fun e => decide (e.1 ∈ unicodes))
  let reachable := keptCmap.map Prod.snd
  let kept := f.glyphs.filter (fun g =>
    decide (g.gid ∈ reachable ∨
      (opts.notdef_outline = true ∧ g.gid = 0) ∨
      (opts.recommended_glyphs = true ∧ (g.gid = 0 ∨ g.name ∈ recommendedGlyphNames))))
  let renumbered :=
    if opts.retain_gids then kept
    else (kept.zip (List.range kept.length)).map (fun p => { p.1 with gid := p.2 })
  let named :=
    if opts.glyph_names then renumbered
    else renumbered.map (fun g => { g with name := [] })
  { f with
    cmap := keptCmap
    glyphs := named
    gsub := if opts.layout_features_all then filterScripts opts.layout_scripts_all f.gsub
            else none
    gpos := if opts.layout_features_all then filterScripts opts.layout_scripts_all f.gpos
            else none
    kernData := f.kernData && opts.legacy_kern
    hintingData := f.hintingData && opts.hinting }

/-- The code-point collection of lines 232-236: only single-character tokens
contribute (glyph-name tokens such as `lig_0` are skipped). -/
def collectUnicodes (tokens : List (List Char)) : List Nat :=
  tokens.filterMap (fun tok =>
    match tok with
    | [c] => some c.toNat
    | _ => none)

/-- Model of `_create_font_subset`: `none` models the function returning `None` (empty
charset dictionary, no characters at all, or no single-character token).  A
charset selection is a dictionary from range name to the list of its selected
tokens. -/
def createFontSubset (f : Font) (selectedCharsets : List (String × List (List Char))) :
    Option Font :=
  if selectedCharsets.isEmpty then none
  else if ((selectedCharsets.map Prod.snd).flatten).isEmpty then none
  else if (collectUnicodes ((selectedCharsets.map Prod.snd).flatten)).isEmpty then none
  else some (subsetFont subsetterOptionsUsed f
    (collectUnicodes ((selectedCharsets.map Prod.snd).flatten)))

/-! ## Merge strategies (`_merge_with_*`, lines 265-381) -/

/-- Paths of the modelled file system: the caller's input font files, the
temporary files the engine allocates from a fresh-name counter, and the output
path. -/
inductive FPath where
  | input (n : Nat)
  | temp (n : Nat)
  | output
  deriving DecidableEq

/-- Observable pipeline events: stage executions and file-system effects. -/
inductive Ev where
  | subsetStage (which : Nat)
  | writeFile (p : FPath)
  | deleteFile (p : FPath)
  | mergeStage
  | nameStage
  | restoreStage
  deriving DecidableEq

/-- The underlying fontTools `Merger.merge` primitive, abstracted: the `Bool`
argument is whether `duplicateGlyphsPerFont` was configured (the default and
UPM strategies set it; the third lenient attempt does not), and an `error`
result models the primitive raising. -/
abbrev MergePrim := Bool → Font → Font → Except String Font

/-- The fontTools `font.save(path)` primitive, abstracted: `true` means the
save of an in-memory font to that path raises (the spec's `IOError`).  The
engine opens each temporary with `NamedTemporaryFile(delete=False)` before
saving, so the on-disk file already exists — and is left behind — when the
save itself raises. -/
abbrev SaveOracle := FPath → Bool

/-- Model of `_merge_with_default_options` (lines 291-300): the primitive invoked
directly, with `duplicateGlyphsPerFont` set and no table dropped.  No
temporary file is created. -/
def mergeWithDefaultOptions (prim : MergePrim) (f1 f2 : Font) : Except String Font :=
  prim true f1 f2

/-- The units-per-em adjustment of lines 308-319: when both fonts have a `head`
table and their values differ, both private copies are set to the maximum. -/
def unifyUpmPair (f1 f2 : Font) : Font × Font :=
  match f1.upm, f2.upm with
  | some u1, some u2 =>
    if u1 ≠ u2 then
      ({ f1 with upm := some (max u1 u2) }, { f2 with upm := some (max u1 u2) })
    else (f1, f2)
  | _, _ => (f1, f2)

/-- Model of `_merge_with_upm_unification` (lines 302-341): adjust private
copies, save them to two fresh temporary files, merge, and delete the
temporaries in a `finally` block (so deletion happens when the merge itself
fails).  The saves at lines 322-328 precede the `try/finally`, so a raising
save aborts with the files already created left undeleted.  Returns the event
trace, the merge result and the advanced temp-name counter. -/
def mergeWithUpmUnification (prim : MergePrim) (sv : SaveOracle) (f1 f2 : Font) (c : Nat) :
    List Ev × Except String Font × Nat :=
  let p := unifyUpmPair f1 f2
  if sv (FPath.temp c) then
    ([Ev.writeFile (FPath.temp c)], Except.error "adjusted copy save failed", c + 2)
  else if sv (FPath.temp (c + 1)) then
    ([Ev.writeFile (FPath.temp c), Ev.writeFile (FPath.temp (c + 1))],
     Except.error "adjusted copy save failed", c + 2)
  else
    ([Ev.writeFile (FPath.temp c), Ev.writeFile (FPath.temp (c + 1)),
      Ev.deleteFile (FPath.temp c), Ev.deleteFile (FPath.temp (c + 1))],
     prim true p.1 p.2, c + 2)

/-- The table-stripping of lines 357-362: only `DSIG` is deleted; every other
facet of the font (in particular `GSUB` and `GPOS`) is untouched. -/
def stripDSIG (f : Font) : Font :=
  { f with hasDSIG := false }

/-- Model of `_merge_with_lenient_options` (lines 343-380): try the default
merge; on any failure of it try UPM unification; on any failure of that,
delete only `DSIG` from fresh private copies, save them to temporaries and
retry the primitive (without `duplicateGlyphsPerFont`, which the third attempt
does not configure).  A failure of the third attempt propagates.  The
third-attempt saves at lines 365-371 precede its `try/finally`, so a raising
save leaves the stripped-copy temporaries undeleted. -/
def mergeWithLenientOptions (prim : MergePrim) (sv : SaveOracle) (f1 f2 : Font) (c : Nat) :
    List Ev × Except String Font × Nat :=
  match mergeWithDefaultOptions prim f1 f2 with
  | Except.ok m => ([], Except.ok m, c)
  | Except.error _ =>
    match mergeWithUpmUnification prim sv f1 f2 c with
    | (t1, Except.ok m, c1) => (t1, Except.ok m, c1)
    | (t1, Except.error _, c1) =>
      if sv (FPath.temp c1) then
        (t1 ++ [Ev.writeFile (FPath.temp c1)],
         Except.error "stripped copy save failed", c1 + 2)
      else if sv (FPath.temp (c1 + 1)) then
        (t1 ++ [Ev.writeFile (FPath.temp c1), Ev.writeFile (FPath.temp (c1 + 1))],
         Except.error "stripped copy save failed", c1 + 2)
      else
        (t1 ++ [Ev.writeFile (FPath.temp c1), Ev.writeFile (FPath.temp (c1 + 1)),
                Ev.deleteFile (FPath.temp c1), Ev.deleteFile (FPath.temp (c1 + 1))],
         prim false (stripDSIG f1) (stripDSIG f2), c1 + 2)

/-- Model of `_merge_font_files` (lines 265-289): dispatch on the merge option
(0 default, 1 UPM unification, 2 lenient), wrapping any error message. -/
def mergeFontFiles (prim : MergePrim) (sv : SaveOracle) (f1 f2 : Font)
    (mergeOption : Nat) (c : Nat) :
    List Ev × Except String Font × Nat :=
  let r :=
    if mergeOption = 1 then mergeWithUpmUnification prim sv f1 f2 c
    else if mergeOption = 2 then mergeWithLenientOptions prim sv f1 f2 c
    else ([], mergeWithDefaultOptions prim f1 f2, c)
  (r.1, r.2.1.mapError (fun e => "merge error: " ++ e), r.2.2)

/-! ## Name rewrite (`_update_font_name`, lines 419-484) -/

/-- Key match of a name record against `(nameID, platformID, platEncID,
langID)`. -/
def nameKeyMatches (r : NameRecord) (nid pid eid lid : Nat) : Bool :=
  r.nameID == nid && r.platformID == pid && r.platEncID == eid && r.langID == lid

/-- fontTools `NameTable.setName`: replace the value of the first record whose
four IDs match, or append a fresh record when none matches. -/
def setName (ns : List NameRecord) (s : List Char) (nid pid eid lid : Nat) :
    List NameRecord :=
  match ns with
  | [] => [⟨nid, pid, eid, lid, s⟩]
  | r :: rs =>
    if nameKeyMatches r nid pid eid lid then { r with value := s } :: rs
    else r :: setName rs s nid pid eid lid

/-- The two platform/encoding/language triples of lines 451-454: Windows
Unicode BMP US-English and Macintosh Roman English. -/
def platformTriples : List (Nat × Nat × Nat) := [(3, 1, 0x409), (1, 0, 0)]

/-- The sanitization `font_name.replace(" ", "").replace("-", "")` of
line 464. -/
def sanitizePostScriptName (nm : List Char) : List Char :=
  nm.filter (fun c => decide (c ≠ ' ' ∧ c ≠ '-'))

/-- One iteration of the loop at lines 456-469: for a platform triple, set the
family (1), full (4), PostScript (6) and unique-identifier (3) names. -/
def setPrimaryNames (nm : List Char) (ns : List NameRecord) (p : Nat × Nat × Nat) :
    List NameRecord :=
  let ns1 := setName ns nm 1 p.1 p.2.1 p.2.2
  let ns2 := setName ns1 nm 4 p.1 p.2.1 p.2.2
  let ns3 := setName ns2 (sanitizePostScriptName nm) 6 p.1 p.2.1 p.2.2
  setName ns3 (nm ++ (": 2023".toList)) 3 p.1 p.2.1 p.2.2

/-- One iteration of the loop at lines 479-481: set the typographic family (16)
and subfamily (17) names. -/
def setTypographicNames (nm : List Char) (ns : List NameRecord) (p : Nat × Nat × Nat) :
    List NameRecord :=
  let ns1 := setName ns nm 16 p.1 p.2.1 p.2.2
  setName ns1 ("Regular".toList) 17 p.1 p.2.1 p.2.2

/-- Model of `_update_font_name`: a no-op when the font has no `name` table; otherwise
remove every record with ID 1, 4 or 6, set the primary names for both platform
triples, remove every record with ID 16 or 17, and set the typographic names
for both triples.  (The trailing `_update_font_metadata_for_korean` call only
touches OS/2, cmap and `head.macStyle` facets that are outside this
embedding.) -/
def updateFontName (f : Font) (nm : List Char) : Font :=
  match f.nameTable with
  | none => f
  | some ns =>
    let ns1 := ns.filter (fun r => decide (r.nameID ∉ ([1, 4, 6] : List Nat)))
    let ns2 := platformTriples.foldl (setPrimaryNames nm) ns1
    let ns3 := ns2.filter (fun r => decide (r.nameID ≠ 16 ∧ r.nameID ≠ 17))
    let ns4 := platformTriples.foldl (setTypographicNames nm) ns3
    { f with nameTable := some ns4 }

/-! ## Feature restorer (`_restore_ligature_support`, lines 623-766) -/

/-- The ligature-family tags of `_calculate_ligature_score_from_font`
(line 684). -/
def restoreScoreTags : List String := ["liga", "dlig", "clig", "rlig", "hlig"]

/-- Model of `_calculate_ligature_score_from_font` (lines 673-695): 10 points per
ligature-family feature record, plus 5 when a GPOS table is present. -/
def ligScoreFromFont (f : Font) : Nat :=
  (match f.gsub with
   | some gt =>
     match gt.featureList with
     | some fl =>
       10 * (fl.featureRecords.filter (fun r => decide (r.1 ∈ restoreScoreTags))).length
     | none => 0
   | none => 0) +
  (if f.gpos.isSome then 5 else 0)

/-- The ligature-and-related tags of `_merge_ligature_features` (line 737). -/
def restoreMergeTags : List String := ["liga", "dlig", "clig", "rlig", "hlig", "calt"]

/-- Model of `_merge_ligature_features` (lines 719-766) on the feature lists: append
every source record whose tag is ligature-related and absent from the target's
tag set (computed once, before any append), then recompute `FeatureCount` only
when something was added. -/
def mergeLigatureFeatureLists (target source : FeatureList) : FeatureList :=
  let existing := target.featureRecords.map Prod.fst
  let toAdd := source.featureRecords.filter (fun r =>
    decide (r.1 ∈ restoreMergeTags ∧ r.1 ∉ existing))
  let newRecords := target.featureRecords ++ toAdd
  { featureRecords := newRecords
    featureCount := if toAdd.length > 0 then newRecords.length else target.featureCount }

/-- Model of `_merge_ligature_features` at the table level: nothing happens when the
source has no feature list; the source list is copied wholesale when the
target has none; otherwise the lists are merged. -/
def mergeLigatureGsub (target source : LayoutTable) : LayoutTable :=
  match source.featureList with
  | none => target
  | some sfl =>
    match target.featureList with
    | none => { target with featureList := some sfl }
    | some tfl => { target with featureList := some (mergeLigatureFeatureLists tfl sfl) }

/-- The GPOS half of `_preserve_ligature_features` (lines 711-714): copy the
source's GPOS table only when the merged font lacks one. -/
def copyGposIfMissing (m1 : Font) (sourceGpos : Option LayoutTable) : Font :=
  match sourceGpos with
  | none => m1
  | some sp => if m1.gpos.isNone then { m1 with gpos := some sp } else m1

/-- Model of `_preserve_ligature_features` (lines 697-717): copy the source's GSUB when
the merged font lacks one, otherwise merge the ligature features into it; copy
the source's GPOS only when the merged font lacks one. -/
def preserveLigatureFeatures (merged source : Font) : Font :=
  let m1 :=
    match source.gsub with
    | none => merged
    | some sg =>
      match merged.gsub with
      | none => { merged with gsub := some sg }
      | some mg => { merged with gsub := some (mergeLigatureGsub mg sg) }
  copyGposIfMissing m1 source.gpos

/-- Model of `_restore_ligature_support` (lines 623-671): prefer the base subset font as
ligature source when its score is positive, else the secondary; when both
score zero, return the merged font unchanged. -/
def restoreLigatureSupport (merged base secondary : Font) : Font :=
  if ligScoreFromFont base > 0 then preserveLigatureFeatures merged base
  else if ligScoreFromFont secondary > 0 then preserveLigatureFeatures merged secondary
  else merged

/-- First-occurrence deduplication by tag with an explicit seen set, mirroring
the loop at lines 950-955. -/
def dedupByTag (seen : List String) : List FeatureEntry → List FeatureEntry
  | [] => []
  | r :: rs =>
    if r.1 ∈ seen then dedupByTag seen rs
    else r :: dedupByTag (r.1 :: seen) rs

/-- Model of `_deduplicate_features` (lines 933-965) on a feature list: keep the first
record of each tag, in list order, and recompute `FeatureCount`.  In the
source this helper is reachable only from `_copy_missing_features` (via
`_enhance_opentype_features`), which the merge pipeline never invokes. -/
def deduplicateFeatures (fl : FeatureList) : FeatureList :=
  let newRecords := dedupByTag [] fl.featureRecords
  { featureRecords := newRecords, featureCount := newRecords.length }

/-! ## The merge pipeline (`merge_fonts`, lines 136-204) -/

/-- Model of `merge_fonts`: subset both fonts (raising when either subset is `None`),
save the subsets to two fresh temporary files (the saves at lines 173-179
precede the `try/finally`, so a raising save aborts with the already-created
temporaries left undeleted), run the merge engine, apply the
custom name when one is given (the source's `if font_name:` truthiness test),
restore ligature support from the saved subsets,
save the output, and delete the temporaries in a `finally` block.  Returns the
full event trace and either the font written to the output path or the raised
error. -/
def mergeFonts (prim : MergePrim) (sv : SaveOracle) (font1 font2 : Font)
    (font1Charsets font2Charsets : List (String × List (List Char)))
    (fontName : Option (List Char)) (mergeOption : Nat) :
    List Ev × Except String Font :=
  match createFontSubset font1 font1Charsets with
  | none => ([Ev.subsetStage 1], Except.error "cannot extract charset from first font")
  | some s1 =>
    match createFontSubset font2 font2Charsets with
    | none =>
      ([Ev.subsetStage 1, Ev.subsetStage 2],
       Except.error "cannot extract charset from second font")
    | some s2 =>
      if sv (FPath.temp 0) then
        ([Ev.subsetStage 1, Ev.subsetStage 2, Ev.writeFile (FPath.temp 0)],
         Except.error "subset save failed")
      else if sv (FPath.temp 1) then
        ([Ev.subsetStage 1, Ev.subsetStage 2, Ev.writeFile (FPath.temp 0),
          Ev.writeFile (FPath.temp 1)],
         Except.error "subset save failed")
      else
        let head := [Ev.subsetStage 1, Ev.subsetStage 2,
                     Ev.writeFile (FPath.temp 0), Ev.writeFile (FPath.temp 1)]
        match mergeFontFiles prim sv s1 s2 mergeOption 2 with
        | (tm, Except.error e, _) =>
          (head ++ [Ev.mergeStage] ++ tm ++
             [Ev.deleteFile (FPath.temp 0), Ev.deleteFile (FPath.temp 1)],
           Except.error e)
        | (tm, Except.ok m, _) =>
          let named :=
            match fontName with
            | some nm => ([Ev.nameStage], updateFontName m nm)
            | none => ([], m)
          let restored := restoreLigatureSupport named.2 s1 s2
          (head ++ [Ev.mergeStage] ++ tm ++ named.1 ++
             [Ev.restoreStage, Ev.writeFile FPath.output,
              Ev.deleteFile (FPath.temp 0), Ev.deleteFile (FPath.temp 1)],
           if sv FPath.output then Except.error "output save failed"
           else Except.ok restored)

/-! ## Sample data used by witnesses -/

/-- A font with no tables at all. -/
def emptyFont : Font :=
  { upm := none, gsub := none, gpos := none, nameTable := none,
    glyphs := [], cmap := [], hasDSIG := false, kernData := false, hintingData := false }

/-- A font whose GSUB feature list holds a single `liga` feature. -/
def ligaFont : Font :=
  { emptyFont with
    gsub := some { featureList := some { featureRecords := [("liga", 0)], featureCount := 1 },
                   scripts := ["DFLT"] } }

/-! ## Theorems -/

lemma featureTagScore_as_indicators (t : String) :
    featureTagScore t =
      100 * (if t = "liga" then 1 else 0) +
      50 * (if t = "dlig" then 1 else 0) +
      50 * (if t = "clig" then 1 else 0) +
      30 * (if t = "rlig" then 1 else 0) +
      20 * (if t = "calt" then 1 else 0) +
      10 * ((if t = "kern" then 1 else 0) + (if t = "curs" then 1 else 0)) +
      5 * ((if t = "ss01" then 1 else 0) + (if t = "ss02" then 1 else 0) +
           (if t = "ss03" then 1 else 0) + (if t = "ss04" then 1 else 0) +
           (if t = "ss05" then 1 else 0) + (if t = "ss06" then 1 else 0) +
           (if t = "ss07" then 1 else 0) + (if t = "ss08" then 1 else 0) +
           (if t = "ss09" then 1 else 0) + (if t = "ss10" then 1 else 0)) := by
  by_cases h1 : t = "liga"
  · subst h1; decide
  by_cases h2 : t = "dlig"
  · subst h2; decide
  by_cases h3 : t = "clig"
  · subst h3; decide
  by_cases h4 : t = "rlig"
  · subst h4; decide
  by_cases h5 : t = "calt"
  · subst h5; decide
  by_cases h6 : t = "kern"
  · subst h6; decide
  by_cases h7 : t = "curs"
  · subst h7; decide
  by_cases h8 : t = "ss01"
  · subst h8; decide
  by_cases h9 : t = "ss02"
  · subst h9; decide
  by_cases h10 : t = "ss03"
  · subst h10; decide
  by_cases h11 : t = "ss04"
  · subst h11; decide
  by_cases h12 : t = "ss05"
  · subst h12; decide
  by_cases h13 : t = "ss06"
  · subst h13; decide
  by_cases h14 : t = "ss07"
  · subst h14; decide
  by_cases h15 : t = "ss08"
  · subst h15; decide
  by_cases h16 : t = "ss09"
  · subst h16; decide
  by_cases h17 : t = "ss10"
  · subst h17; decide
  simp [featureTagScore, h1, h2, h3, h4, h5, h6, h7, h8, h9, h10,
        h11, h12, h13, h14, h15, h16, h17]

lemma foldl_featureTagScore_eq_sum (l : List FeatureEntry) (n : Nat) :
    l.foldl (fun s r => s + featureTagScore r.1) n =
      n + ((l.map Prod.fst).map featureTagScore).sum := by
  induction l generalizing n with
  | nil => simp
  | cons a l ih => simp [ih, Nat.add_assoc]

lemma sum_featureTagScore_eq_counts (l : List String) :
    (l.map featureTagScore).sum =
      100 * l.count "liga" + 50 * l.count "dlig" + 50 * l.count "clig" +
      30 * l.count "rlig" + 20 * l.count "calt" +
      10 * (l.count "kern" + l.count "curs") +
      5 * (l.count "ss01" + l.count "ss02" + l.count "ss03" + l.count "ss04" +
           l.count "ss05" + l.count "ss06" + l.count "ss07" + l.count "ss08" +
           l.count "ss09" + l.count "ss10") := by
  induction l with
  | nil => simp
  | cons t l ih =>
    simp only [List.map_cons, List.sum_cons, List.count_cons, beq_iff_eq, ih,
               featureTagScore_as_indicators]
    ring

/-- C8: the ligature score is 0 when the font has no GSUB feature list, and
otherwise equals the weighted count of the scored feature tags (100 per
`liga`, 50 per `dlig`/`clig`, 30 per `rlig`, 20 per `calt`, 10 per
`kern`/`curs`, 5 per stylistic set `ss01`..`ss10`) plus the glyph-name bonus
at the 50/20/10 thresholds; the score is a natural number, hence ≥ 0. -/
theorem ligature_score_formula (f : Font) :
    (f.gsub = none → calculateLigatureScore f = 0) ∧
    (∀ gt, f.gsub = some gt → gt.featureList = none → calculateLigatureScore f = 0) ∧
    (∀ gt fl, f.gsub = some gt → gt.featureList = some fl →
      calculateLigatureScore f =
        100 * (fl.featureRecords.map Prod.fst).count "liga" +
        50 * (fl.featureRecords.map Prod.fst).count "dlig" +
        50 * (fl.featureRecords.map Prod.fst).count "clig" +
        30 * (fl.featureRecords.map Prod.fst).count "rlig" +
        20 * (fl.featureRecords.map Prod.fst).count "calt" +
        10 * ((fl.featureRecords.map Prod.fst).count "kern" +
              (fl.featureRecords.map Prod.fst).count "curs") +
        5 * ((fl.featureRecords.map Prod.fst).count "ss01" +
             (fl.featureRecords.map Prod.fst).count "ss02" +
             (fl.featureRecords.map Prod.fst).count "ss03" +
             (fl.featureRecords.map Prod.fst).count "ss04" +
             (fl.featureRecords.map Prod.fst).count "ss05" +
             (fl.featureRecords.map Prod.fst).count "ss06" +
             (fl.featureRecords.map Prod.fst).count "ss07" +
             (fl.featureRecords.map Prod.fst).count "ss08" +
             (fl.featureRecords.map Prod.fst).count "ss09" +
             (fl.featureRecords.map Prod.fst).count "ss10") +
        (if (f.glyphs.filter (fun g => glyphNameIndicatesLigature g.name)).length > 50 then 25
         else if (f.glyphs.filter (fun g => glyphNameIndicatesLigature g.name)).length > 20 then 15
         else if (f.glyphs.filter (fun g => glyphNameIndicatesLigature g.name)).length > 10 then 10
         else 0)) := by
  refine ⟨fun h => by simp [calculateLigatureScore, h], fun gt h hfl => ?_, fun gt fl h hfl => ?_⟩
  · simp [calculateLigatureScore, h, hfl]
  · simp only [calculateLigatureScore, h, hfl]
    rw [foldl_featureTagScore_eq_sum, sum_featureTagScore_eq_counts]
    simp [ligatureGlyphBonus]

/-- Witness for C8: evaluating the formula on a concrete font with one `liga`
feature and no glyphs gives score 100. -/
theorem ligature_score_formula_witness : calculateLigatureScore ligaFont = 100 := by
  have h := (ligature_score_formula ligaFont).2.2
    { featureList := some { featureRecords := [("liga", 0)], featureCount := 1 },
      scripts := ["DFLT"] }
    { featureRecords := [("liga", 0)], featureCount := 1 } rfl rfl
  rw [h]
  decide

/-- C9: automatic font ordering swaps the two paths exactly when both fonts
load and the second font's ligature score strictly exceeds the first's; in
every other case (ties included, and any load failure) the original order is
returned unswapped. -/
theorem font_order_swaps_iff (load : String → Option Font) (font1Path font2Path : String) :
    (determineOptimalFontOrder load font1Path font2Path = (font2Path, font1Path, true) ↔
      ∃ f1 f2, load font1Path = some f1 ∧ load font2Path = some f2 ∧
        calculateLigatureScore f1 < calculateLigatureScore f2) ∧
    ((¬ ∃ f1 f2, load font1Path = some f1 ∧ load font2Path = some f2 ∧
        calculateLigatureScore f1 < calculateLigatureScore f2) →
      determineOptimalFontOrder load font1Path font2Path = (font1Path, font2Path, false)) := by
  unfold determineOptimalFontOrder
  rcases hl1 : load font1Path with _ | f1 <;> rcases hl2 : load font2Path with _ | f2
  · simp
  · simp
  · simp
  · by_cases hs : calculateLigatureScore f1 < calculateLigatureScore f2
    · simp [hs]
    · simp [hs]

/-- Witness for C9: with a loader giving the second font a `liga` feature and
the first none, the order is swapped; with a failing loader it is kept. -/
theorem font_order_swaps_iff_witness :
    determineOptimalFontOrder
      (fun p => if p = "b" then some ligaFont else some emptyFont) "a" "b" =
      ("b", "a", true) ∧
    determineOptimalFontOrder (fun _ => none) "a" "b" = ("a", "b", false) :=
  ⟨(font_order_swaps_iff (fun p => if p = "b" then some ligaFont else some emptyFont)
      "a" "b").1.mpr ⟨emptyFont, ligaFont, by decide, by decide, by decide⟩,
   (font_order_swaps_iff (fun _ => none) "a" "b").2 (by simp)⟩

/-- C3: when the temporary saves succeed, the Lenient strategy attempts, in
order, the exact merge, then the units-per-em-unified merge, then a retry on
copies from which only `DSIG` has been deleted (the stripped copies keep GSUB,
GPOS and every other facet of the fonts); the third attempt's outcome — its
error included — is returned as is. -/
theorem lenient_fallback_chain (prim : MergePrim) (sv : SaveOracle) (f1 f2 : Font) (c : Nat)
    (hsv : ∀ n, sv (FPath.temp n) = false) :
    (∀ m, prim true f1 f2 = Except.ok m →
      mergeWithLenientOptions prim sv f1 f2 c = ([], Except.ok m, c)) ∧
    (∀ e m, prim true f1 f2 = Except.error e →
      prim true (unifyUpmPair f1 f2).1 (unifyUpmPair f1 f2).2 = Except.ok m →
      (mergeWithLenientOptions prim sv f1 f2 c).2.1 = Except.ok m) ∧
    (∀ e1 e2, prim true f1 f2 = Except.error e1 →
      prim true (unifyUpmPair f1 f2).1 (unifyUpmPair f1 f2).2 = Except.error e2 →
      (mergeWithLenientOptions prim sv f1 f2 c).2.1 =
        prim false (stripDSIG f1) (stripDSIG f2)) ∧
    ((stripDSIG f1).hasDSIG = false ∧ (stripDSIG f2).hasDSIG = false) ∧
    ((stripDSIG f1).gsub = f1.gsub ∧ (stripDSIG f1).gpos = f1.gpos ∧
     (stripDSIG f2).gsub = f2.gsub ∧ (stripDSIG f2).gpos = f2.gpos) ∧
    ((stripDSIG f1).upm = f1.upm ∧ (stripDSIG f1).nameTable = f1.nameTable ∧
     (stripDSIG f1).glyphs = f1.glyphs ∧ (stripDSIG f1).cmap = f1.cmap ∧
     (stripDSIG f1).kernData = f1.kernData ∧ (stripDSIG f1).hintingData = f1.hintingData) := by
  refine ⟨fun m hm => ?_, fun e m he hm => ?_, fun e1 e2 he1 he2 => ?_,
    ⟨rfl, rfl⟩, ⟨rfl, rfl, rfl, rfl⟩, ⟨rfl, rfl, rfl, rfl, rfl, rfl⟩⟩
  · simp [mergeWithLenientOptions, mergeWithDefaultOptions, hm]
  · simp [mergeWithLenientOptions, mergeWithDefaultOptions, mergeWithUpmUnification,
      hsv, he, hm]
  · simp [mergeWithLenientOptions, mergeWithDefaultOptions, mergeWithUpmUnification,
      hsv, he1, he2]

/-- Witness for C3: with a primitive that always raises and saves that always
succeed, the lenient strategy's result is the third attempt's error, and the
stripped copies keep their GSUB facet. -/
theorem lenient_fallback_chain_witness :
    (mergeWithLenientOptions (fun _ _ _ => Except.error "boom") (fun _ => false)
        ligaFont emptyFont 0).2.1 = Except.error "boom" ∧
    (stripDSIG ligaFont).gsub = ligaFont.gsub := by
  have h := lenient_fallback_chain (fun _ _ _ => Except.error "boom") (fun _ => false)
    ligaFont emptyFont 0 (fun n => rfl)
  exact ⟨(h.2.2.1 "boom" "boom" rfl rfl).trans rfl, h.2.2.2.2.1.1⟩

/-- C4: when both fonts have a `head` table and their units-per-em differ, the
two private copies handed to the merge primitive (once their saves succeed)
are the originals with only `upm` rewritten to the maximum of the two values;
every file written by the strategy is a fresh temporary (never a caller path),
whatever the save outcomes; and whenever the primitive preserves its first
font's units-per-em, the merged result's units-per-em is that maximum. -/
theorem upm_unification_max (prim : MergePrim) (sv : SaveOracle) (f1 f2 : Font)
    (c u1 u2 : Nat) (h1 : f1.upm = some u1) (h2 : f2.upm = some u2) (hne : u1 ≠ u2)
    (hsc : sv (FPath.temp c) = false) (hsc1 : sv (FPath.temp (c + 1)) = false) :
    (unifyUpmPair f1 f2).1 = { f1 with upm := some (max u1 u2) } ∧
    (unifyUpmPair f1 f2).2 = { f2 with upm := some (max u1 u2) } ∧
    (mergeWithUpmUnification prim sv f1 f2 c).2.1 =
      prim true { f1 with upm := some (max u1 u2) } { f2 with upm := some (max u1 u2) } ∧
    (∀ sv' : SaveOracle, ∀ p, Ev.writeFile p ∈ (mergeWithUpmUnification prim sv' f1 f2 c).1 →
      ∃ n, p = FPath.temp n) ∧
    ((∀ a b m', prim true a b = Except.ok m' → m'.upm = a.upm) →
      ∀ m, (mergeWithUpmUnification prim sv f1 f2 c).2.1 = Except.ok m →
        m.upm = some (max u1 u2)) := by
  have hu : unifyUpmPair f1 f2 =
      ({ f1 with upm := some (max u1 u2) }, { f2 with upm := some (max u1 u2) }) := by
    unfold unifyUpmPair
    rw [h1, h2]
    simp [hne]
  refine ⟨by rw [hu], by rw [hu], ?_, ?_, ?_⟩
  · simp [mergeWithUpmUnification, hsc, hsc1, hu]
  · intro sv' p hp
    unfold mergeWithUpmUnification at hp
    split at hp
    · simp only [List.mem_cons, List.not_mem_nil, or_false] at hp
      exact ⟨c, by injection hp⟩
    split at hp
    · simp only [List.mem_cons, List.not_mem_nil, or_false] at hp
      rcases hp with h | h
      · exact ⟨c, by injection h⟩
      · exact ⟨c + 1, by injection h⟩
    · simp only [List.mem_cons, List.not_mem_nil, or_false] at hp
      rcases hp with h | h | h | h
      · exact ⟨c, by injection h⟩
      · exact ⟨c + 1, by injection h⟩
      · exact absurd h (by simp)
      · exact absurd h (by simp)
  · intro hpres m hm
    simp only [mergeWithUpmUnification, hsc, hsc1, if_false, hu] at hm
    have := hpres _ _ _ hm
    rw [this]

/-- Witness for C4: units-per-em 1000 and 2048 are both unified to 2048. -/
theorem upm_unification_max_witness :
    (unifyUpmPair { emptyFont with upm := some 1000 }
        { emptyFont with upm := some 2048 }).1.upm = some 2048 ∧
    (unifyUpmPair { emptyFont with upm := some 1000 }
        { emptyFont with upm := some 2048 }).2.upm = some 2048 := by
  have h := upm_unification_max (fun _ a _ => Except.ok a) (fun _ => false)
    { emptyFont with upm := some 1000 } { emptyFont with upm := some 2048 }
    0 1000 2048 rfl rfl (by decide) rfl rfl
  rw [h.1, h.2.1]
  exact ⟨by decide, by decide⟩

/-- The GSUB feature-tag list of a font (empty when there is no GSUB table or
no feature list). -/
def gsubFeatureTags (f : Font) : List String :=
  match f.gsub with
  | some gt =>
    match gt.featureList with
    | some fl => fl.featureRecords.map Prod.fst
    | none => []
  | none => []

/-- A font whose GSUB feature list carries a duplicated `calt` tag, as the
merge engine can produce. -/
def dupFont : Font :=
  { emptyFont with
    gsub := some { featureList := some { featureRecords := [("calt", 0), ("calt", 1)],
                                         featureCount := 2 },
                   scripts := [] } }

/-- A one-range charset selection holding the single character `A`. -/
def singleCharSelection : List (String × List (List Char)) := [("basic", [['A']])]

lemma dedupByTag_sublist : ∀ (l : List FeatureEntry) (seen : List String),
    (dedupByTag seen l).Sublist l := by
  intro l
  induction l with
  | nil => intro seen; simp [dedupByTag]
  | cons r rs ih =>
    intro seen
    by_cases h : r.1 ∈ seen
    · simpa [dedupByTag, h] using (ih seen).cons r
    · simpa [dedupByTag, h] using (ih (r.1 :: seen)).cons₂ r

lemma dedupByTag_spec : ∀ (l : List FeatureEntry) (seen : List String),
    ((dedupByTag seen l).map Prod.fst).Nodup ∧
    (∀ t, t ∈ (dedupByTag seen l).map Prod.fst ↔ t ∈ l.map Prod.fst ∧ t ∉ seen) := by
  intro l
  induction l with
  | nil => intro seen; simp [dedupByTag]
  | cons r rs ih =>
    intro seen
    by_cases h : r.1 ∈ seen
    · rw [show dedupByTag seen (r :: rs) = dedupByTag seen rs from by simp [dedupByTag, h]]
      refine ⟨(ih seen).1, fun t => ?_⟩
      rw [(ih seen).2 t]
      simp only [List.map_cons, List.mem_cons]
      constructor
      · rintro ⟨ht, hns⟩; exact ⟨Or.inr ht, hns⟩
      · rintro ⟨hor, hns⟩
        rcases hor with rfl | ht
        · exact absurd h hns
        · exact ⟨ht, hns⟩
    · rw [show dedupByTag seen (r :: rs) = r :: dedupByTag (r.1 :: seen) rs from by
        simp [dedupByTag, h]]
      have hih := ih (r.1 :: seen)
      refine ⟨?_, fun t => ?_⟩
      · simp only [List.map_cons]
        refine List.nodup_cons.2 ⟨fun hmem => ?_, hih.1⟩
        exact ((hih.2 r.1).1 hmem).2 (List.mem_cons_self r.1 seen)
      · simp only [List.map_cons, List.mem_cons]
        rw [hih.2 t]
        simp only [List.mem_cons, not_or]
        constructor
        · rintro (rfl | ⟨ht, hne, hns⟩)
          · exact ⟨Or.inl rfl, h⟩
          · exact ⟨Or.inr ht, hns⟩
        · rintro ⟨hor, hns⟩
          rcases hor with rfl | ht
          · exact Or.inl rfl
          · by_cases he : t = r.1
            · exact Or.inl he
            · exact Or.inr ⟨ht, he, hns⟩

lemma copyGposIfMissing_gsub (m1 : Font) (o : Option LayoutTable) :
    (copyGposIfMissing m1 o).gsub = m1.gsub := by
  cases o with
  | none => rfl
  | some sp =>
    by_cases h : m1.gpos.isNone
    · simp [copyGposIfMissing, h]
    · simp [copyGposIfMissing, h]

lemma preserve_extends (merged src : Font) (mg : LayoutTable) (fl : FeatureList)
    (hg : merged.gsub = some mg) (hfl : mg.featureList = some fl) :
    ∃ extra mg' fl',
      (preserveLigatureFeatures merged src).gsub = some mg' ∧
      mg'.featureList = some fl' ∧
      fl'.featureRecords = fl.featureRecords ++ extra ∧
      ∀ r ∈ extra, r.1 ∈ restoreMergeTags ∧ r.1 ∉ fl.featureRecords.map Prod.fst := by
  unfold preserveLigatureFeatures
  cases hsg : src.gsub with
  | none =>
    refine ⟨[], mg, fl, ?_, hfl, by simp, by simp⟩
    rw [copyGposIfMissing_gsub, hg]
  | some sg =>
    simp only [hg, copyGposIfMissing_gsub]
    cases hsfl : sg.featureList with
    | none =>
      refine ⟨[], mergeLigatureGsub mg sg, fl, rfl, ?_, by simp, by simp⟩
      simp [mergeLigatureGsub, hsfl, hfl]
    | some sfl =>
      refine ⟨sfl.featureRecords.filter (fun r =>
          decide (r.1 ∈ restoreMergeTags ∧ r.1 ∉ fl.featureRecords.map Prod.fst)),
        mergeLigatureGsub mg sg,
        mergeLigatureFeatureLists fl sfl, rfl, ?_, ?_, ?_⟩
      · simp [mergeLigatureGsub, hsfl, hfl]
      · simp [mergeLigatureFeatureLists]
      · intro r hr
        rw [List.mem_filter] at hr
        exact of_decide_eq_true hr.2

/-- C1 (amended): the Feature Restorer only appends to the merged font's GSUB
feature-record list — the original records stay, in order, at the front, and
every appended record carries a ligature-family tag that was absent from the
original tag list — so duplicate tags present before restoration persist (the
deduplication pass never executes inside the merge pipeline); the
`_deduplicate_features` helper itself, reachable only from code the pipeline
does not call, does deduplicate by tag, keeps a subsequence of the records,
and recomputes the feature count. -/
theorem restore_appends_only (merged base secondary : Font) (mg : LayoutTable)
    (fl : FeatureList) (hg : merged.gsub = some mg) (hfl : mg.featureList = some fl) :
    (∃ extra mg' fl',
      (restoreLigatureSupport merged base secondary).gsub = some mg' ∧
      mg'.featureList = some fl' ∧
      fl'.featureRecords = fl.featureRecords ++ extra ∧
      (∀ r ∈ extra, r.1 ∈ restoreMergeTags ∧ r.1 ∉ fl.featureRecords.map Prod.fst) ∧
      (¬ (fl.featureRecords.map Prod.fst).Nodup →
        ¬ (fl'.featureRecords.map Prod.fst).Nodup)) ∧
    (∀ fl₀ : FeatureList,
      ((deduplicateFeatures fl₀).featureRecords.map Prod.fst).Nodup ∧
      (deduplicateFeatures fl₀).featureRecords.Sublist fl₀.featureRecords ∧
      (∀ t, t ∈ (deduplicateFeatures fl₀).featureRecords.map Prod.fst ↔
        t ∈ fl₀.featureRecords.map Prod.fst) ∧
      (deduplicateFeatures fl₀).featureCount =
        (deduplicateFeatures fl₀).featureRecords.length) := by
  constructor
  · have hmain : ∃ extra mg' fl',
        (restoreLigatureSupport merged base secondary).gsub = some mg' ∧
        mg'.featureList = some fl' ∧
        fl'.featureRecords = fl.featureRecords ++ extra ∧
        (∀ r ∈ extra, r.1 ∈ restoreMergeTags ∧ r.1 ∉ fl.featureRecords.map Prod.fst) := by
      unfold restoreLigatureSupport
      by_cases hb : ligScoreFromFont base > 0
      · simpa [hb] using preserve_extends merged base mg fl hg hfl
      · by_cases hs : ligScoreFromFont secondary > 0
        · simpa [hb, hs] using preserve_extends merged secondary mg fl hg hfl
        · exact ⟨[], mg, fl, by simp [hb, hs, hg], hfl, by simp, by simp⟩
    obtain ⟨extra, mg', fl', h1, h2, h3, h4⟩ := hmain
    refine ⟨extra, mg', fl', h1, h2, h3, h4, fun hdup hnew => hdup ?_⟩
    rw [h3, List.map_append] at hnew
    exact hnew.of_append_left
  · intro fl₀
    have hd : (deduplicateFeatures fl₀).featureRecords = dedupByTag [] fl₀.featureRecords := rfl
    refine ⟨by rw [hd]; exact (dedupByTag_spec fl₀.featureRecords []).1,
      by rw [hd]; exact dedupByTag_sublist fl₀.featureRecords [],
      fun t => ?_, rfl⟩
    rw [hd, (dedupByTag_spec fl₀.featureRecords []).2 t]
    simp

/-- The duplicated feature list carried by `dupFont`. -/
def dupFeatureList : FeatureList :=
  { featureRecords := [("calt", 0), ("calt", 1)], featureCount := 2 }

/-- Witness for C1 (amended): restoring `ligaFont` from itself leaves its GSUB
unchanged, and the (pipeline-unreachable) dedup helper removes the duplicated
`calt` record. -/
theorem restore_appends_only_witness :
    (restoreLigatureSupport ligaFont ligaFont emptyFont).gsub = ligaFont.gsub ∧
    ((deduplicateFeatures dupFeatureList).featureRecords.map Prod.fst).Nodup := by
  have h := restore_appends_only ligaFont ligaFont emptyFont _ _ rfl rfl
  exact ⟨by decide, (h.2 dupFeatureList).1⟩

/-- Counterexample for C1 as stated: a full pipeline run whose merge engine
hands back a font with a duplicated `calt` feature tag ends — after the
Feature Restorer ran — with the duplicate still present: no deduplication pass
executed. -/
theorem dedup_not_run_cex :
    (mergeFonts (fun _ _ _ => Except.ok dupFont) (fun _ => false) emptyFont emptyFont
        singleCharSelection singleCharSelection none 0).2 = Except.ok dupFont ∧
    ¬ (gsubFeatureTags dupFont).Nodup := by
  constructor
  · rfl
  · decide

/-- C2 (amended): a merge raises whenever either charset selection reduces to
zero usable code points — one empty selection is already a hard failure, not
just two — and the pipeline reaches the merge engine only when both subsets
are non-empty. -/
theorem merge_fails_on_any_empty_selection (prim : MergePrim) (sv : SaveOracle)
    (f1 f2 : Font)
    (cs1 cs2 : List (String × List (List Char))) (nm : Option (List Char)) (opt : Nat) :
    (createFontSubset f1 cs1 = none ∨ createFontSubset f2 cs2 = none →
      ∃ e, (mergeFonts prim sv f1 f2 cs1 cs2 nm opt).2 = Except.error e) ∧
    ((∃ s1, createFontSubset f1 cs1 = some s1) → (∃ s2, createFontSubset f2 cs2 = some s2) →
      sv (FPath.temp 0) = false → sv (FPath.temp 1) = false →
      Ev.mergeStage ∈ (mergeFonts prim sv f1 f2 cs1 cs2 nm opt).1) := by
  constructor
  · intro h
    rcases hc1 : createFontSubset f1 cs1 with _ | s1
    · exact ⟨"cannot extract charset from first font", by simp [mergeFonts, hc1]⟩
    · rcases hc2 : createFontSubset f2 cs2 with _ | s2
      · exact ⟨"cannot extract charset from second font", by simp [mergeFonts, hc1, hc2]⟩
      · rcases h with h | h
        · rw [hc1] at h; exact absurd h (by simp)
        · rw [hc2] at h; exact absurd h (by simp)
  · rintro ⟨s1, hs1⟩ ⟨s2, hs2⟩ hv0 hv1
    unfold mergeFonts
    rw [hs1, hs2]
    rcases hm : mergeFontFiles prim sv s1 s2 opt 2 with ⟨tm, r, c'⟩
    cases r with
    | error e => simp [hv0, hv1, hm]
    | ok m => simp [hv0, hv1, hm]

/-- Witness for C2 (amended): a run with the first selection empty errors even
though the merge primitive always succeeds, and a run with both selections
non-empty reaches the merge engine. -/
theorem merge_fails_on_any_empty_selection_witness :
    (∃ e, (mergeFonts (fun _ a _ => Except.ok a) (fun _ => false) emptyFont emptyFont
        ([] : List (String × List (List Char))) singleCharSelection none 0).2 =
      Except.error e) ∧
    Ev.mergeStage ∈ (mergeFonts (fun _ a _ => Except.ok a) (fun _ => false) emptyFont
        emptyFont singleCharSelection singleCharSelection none 0).1 :=
  ⟨(merge_fails_on_any_empty_selection (fun _ a _ => Except.ok a) (fun _ => false)
      emptyFont emptyFont [] singleCharSelection none 0).1 (Or.inl rfl),
   (merge_fails_on_any_empty_selection (fun _ a _ => Except.ok a) (fun _ => false)
      emptyFont emptyFont singleCharSelection singleCharSelection none 0).2
      ⟨_, rfl⟩ ⟨_, rfl⟩ rfl rfl⟩

/-- Counterexample for C2 as stated: with the first selection holding one
character and the second empty — exactly one empty selection — the merge is a
hard failure (it raises before the merge engine ever runs, even though the
merge primitive itself always succeeds), although the claim says it should
proceed with the non-empty font's contribution. -/
theorem one_empty_selection_fails_cex :
    ∃ e, (mergeFonts (fun _ a _ => Except.ok a) (fun _ => false) emptyFont emptyFont
        singleCharSelection ([] : List (String × List (List Char))) none 0).2 =
      Except.error e :=
  ⟨_, rfl⟩

/-- C5 (amended): a successful pipeline runs its stages in the order
Subsetter (font 1 then font 2), temp saves, Merge Engine, Metadata Finalizer
(only when a custom name was supplied — it is skipped entirely otherwise),
Feature Restorer, output save, temp cleanup; accordingly the output font is
the result of restoring ligatures on the name-updated merge result (name
rewrite applied first, restoration second). -/
theorem pipeline_stage_order (prim : MergePrim) (sv : SaveOracle) (f1 f2 : Font)
    (cs1 cs2 : List (String × List (List Char))) (nm : Option (List Char)) (opt : Nat)
    (s1 s2 : Font) (hs1 : createFontSubset f1 cs1 = some s1)
    (hs2 : createFontSubset f2 cs2 = some s2)
    (hv0 : sv (FPath.temp 0) = false) (hv1 : sv (FPath.temp 1) = false)
    (hvo : sv FPath.output = false)
    (m : Font) (hm : (mergeFontFiles prim sv s1 s2 opt 2).2.1 = Except.ok m) :
    (mergeFonts prim sv f1 f2 cs1 cs2 nm opt).1 =
      [Ev.subsetStage 1, Ev.subsetStage 2,
       Ev.writeFile (FPath.temp 0), Ev.writeFile (FPath.temp 1), Ev.mergeStage] ++
      (mergeFontFiles prim sv s1 s2 opt 2).1 ++
      (match nm with | some _ => [Ev.nameStage] | none => []) ++
      [Ev.restoreStage, Ev.writeFile FPath.output,
       Ev.deleteFile (FPath.temp 0), Ev.deleteFile (FPath.temp 1)] ∧
    (mergeFonts prim sv f1 f2 cs1 cs2 nm opt).2 =
      Except.ok (restoreLigatureSupport
        (match nm with | some n => updateFontName m n | none => m) s1 s2) := by
  unfold mergeFonts
  rw [hs1, hs2]
  rcases hmf : mergeFontFiles prim sv s1 s2 opt 2 with ⟨tm, r, c'⟩
  rw [hmf] at hm
  simp only at hm
  subst hm
  cases nm with
  | none => simp [hv0, hv1, hvo, hmf]
  | some n => simp [hv0, hv1, hvo, hmf]

/-- Witness for C5 (amended): the concrete trace of a successful named run. -/
theorem pipeline_stage_order_witness :
    (mergeFonts (fun _ a _ => Except.ok a) (fun _ => false) emptyFont emptyFont
        singleCharSelection singleCharSelection (some ['N']) 0).1 =
      [Ev.subsetStage 1, Ev.subsetStage 2,
       Ev.writeFile (FPath.temp 0), Ev.writeFile (FPath.temp 1), Ev.mergeStage,
       Ev.nameStage, Ev.restoreStage, Ev.writeFile FPath.output,
       Ev.deleteFile (FPath.temp 0), Ev.deleteFile (FPath.temp 1)] := by
  have h := (pipeline_stage_order (fun _ a _ => Except.ok a) (fun _ => false)
    emptyFont emptyFont singleCharSelection singleCharSelection (some ['N']) 0
    _ _ rfl rfl rfl rfl rfl _ rfl).1
  rw [h]
  rfl

/-- Counterexample for C5 as stated: in a successful named run the Metadata
Finalizer stage (`_update_font_name`, which also patches the OS/2 and head
metadata) executes strictly before the Feature Restorer stage, although the
claim says metadata finalization never runs before ligature restoration. -/
theorem metadata_runs_before_restore_cex :
    Ev.nameStage ∈ (mergeFonts (fun _ a _ => Except.ok a) (fun _ => false)
        emptyFont emptyFont
        singleCharSelection singleCharSelection (some ['N']) 0).1 ∧
    Ev.restoreStage ∈ (mergeFonts (fun _ a _ => Except.ok a) (fun _ => false)
        emptyFont emptyFont
        singleCharSelection singleCharSelection (some ['N']) 0).1 ∧
    ((mergeFonts (fun _ a _ => Except.ok a) (fun _ => false) emptyFont emptyFont
        singleCharSelection singleCharSelection (some ['N']) 0).1).indexOf Ev.nameStage <
      ((mergeFonts (fun _ a _ => Except.ok a) (fun _ => false) emptyFont emptyFont
        singleCharSelection singleCharSelection (some ['N']) 0).1).indexOf Ev.restoreStage := by
  refine ⟨?_, ?_, ?_⟩ <;> decide

lemma mergeFontFiles_temps_cleaned (prim : MergePrim) (sv : SaveOracle) (s1 s2 : Font)
    (opt c n : Nat) (hsv : ∀ k, sv (FPath.temp k) = false)
    (h : Ev.writeFile (FPath.temp n) ∈ (mergeFontFiles prim sv s1 s2 opt c).1) :
    Ev.deleteFile (FPath.temp n) ∈ (mergeFontFiles prim sv s1 s2 opt c).1 := by
  unfold mergeFontFiles at h ⊢
  by_cases h1 : opt = 1
  · simp [h1, mergeWithUpmUnification, hsv] at h ⊢
    exact h
  · by_cases h2 : opt = 2
    · simp only [h1, if_false, h2, if_true] at h ⊢
      unfold mergeWithLenientOptions at h ⊢
      cases hd : mergeWithDefaultOptions prim s1 s2 with
      | ok m => simp [hd] at h
      | error e =>
        cases hu : prim true (unifyUpmPair s1 s2).1 (unifyUpmPair s1 s2).2 with
        | ok m =>
          simp [hd, mergeWithUpmUnification, hsv, hu] at h ⊢
          exact h
        | error e2 =>
          simp [hd, mergeWithUpmUnification, hsv, hu] at h ⊢
          rcases h with h | h | h | h
          · exact Or.inl h
          · exact Or.inr (Or.inl h)
          · exact Or.inr (Or.inr (Or.inl h))
          · exact Or.inr (Or.inr (Or.inr h))
    · simp [h1, h2, mergeWithDefaultOptions] at h

/-- C10 (amended): when the temporary-file saves succeed, every temporary
written during a merge operation — the two subset temporaries and the
per-attempt adjusted copies made by the UPM and lenient strategies — has a
matching deletion in the same operation's trace, whatever the primitive's
outcomes and even when the output save fails (success and every
post-save failure path); a raising temporary save itself, however, aborts the
operation before its `try/finally` and leaks the already-created files. -/
theorem temp_files_cleaned (prim : MergePrim) (sv : SaveOracle) (f1 f2 : Font)
    (cs1 cs2 : List (String × List (List Char))) (nm : Option (List Char)) (opt n : Nat)
    (hsv : ∀ k, sv (FPath.temp k) = false)
    (h : Ev.writeFile (FPath.temp n) ∈ (mergeFonts prim sv f1 f2 cs1 cs2 nm opt).1) :
    Ev.deleteFile (FPath.temp n) ∈ (mergeFonts prim sv f1 f2 cs1 cs2 nm opt).1 := by
  unfold mergeFonts at h ⊢
  rcases hc1 : createFontSubset f1 cs1 with _ | s1
  · rw [hc1] at h
    simp at h
  rw [hc1] at h
  rcases hc2 : createFontSubset f2 cs2 with _ | s2
  · rw [hc2] at h
    simp at h
  rw [hc2] at h
  have hdel0 := mergeFontFiles_temps_cleaned prim sv s1 s2 opt 2 n hsv
  rcases hmf : mergeFontFiles prim sv s1 s2 opt 2 with ⟨tm, r, c'⟩
  have hdel : Ev.writeFile (FPath.temp n) ∈ tm → Ev.deleteFile (FPath.temp n) ∈ tm := by
    rw [hmf] at hdel0
    exact hdel0
  cases r with
  | error e =>
    simp [hsv, hmf] at h ⊢
    tauto
  | ok m =>
    cases nm with
    | none =>
      simp [hsv, hmf] at h ⊢
      tauto
    | some nmv =>
      simp [hsv, hmf] at h ⊢
      tauto

/-- Witness for C10 (amended): the first subset temporary's deletion is in the
trace of a run whose output save fails — cleanup on a failure path. -/
theorem temp_files_cleaned_witness :
    Ev.deleteFile (FPath.temp 0) ∈ (mergeFonts (fun _ a _ => Except.ok a)
        (fun p => decide (p = FPath.output)) emptyFont emptyFont
        singleCharSelection singleCharSelection none 0).1 :=
  temp_files_cleaned (fun _ a _ => Except.ok a) (fun p => decide (p = FPath.output))
    emptyFont emptyFont singleCharSelection singleCharSelection none 0 0
    (fun k => rfl) (by decide)

/-- Counterexample for C10 as stated: when the save of the second subset
temporary raises (the spec's `IOError`), the first subset temporary has been
written but is never deleted — the saves at lines 173-179 precede the
`try/finally`, so this failure path leaks both already-created temporary
files and the operation returns an error. -/
theorem temp_save_leak_cex :
    Ev.writeFile (FPath.temp 0) ∈ (mergeFonts (fun _ a _ => Except.ok a)
        (fun p => decide (p = FPath.temp 1)) emptyFont emptyFont
        singleCharSelection singleCharSelection none 0).1 ∧
    Ev.deleteFile (FPath.temp 0) ∉ (mergeFonts (fun _ a _ => Except.ok a)
        (fun p => decide (p = FPath.temp 1)) emptyFont emptyFont
        singleCharSelection singleCharSelection none 0).1 ∧
    ∃ e, (mergeFonts (fun _ a _ => Except.ok a)
        (fun p => decide (p = FPath.temp 1)) emptyFont emptyFont
        singleCharSelection singleCharSelection none 0).2 = Except.error e := by
  refine ⟨by decide, by decide, ⟨_, rfl⟩⟩

/-- A small sample font: a `.notdef` glyph, a glyph for `A`, a GSUB table with
a `liga` feature, and kerning/hinting data. -/
def sampleFont : Font :=
  { emptyFont with
    glyphs := [⟨0, ['.', 'n']⟩, ⟨3, "space".toList⟩, ⟨7, ['A']⟩],
    cmap := [(65, 7)],
    gsub := ligaFont.gsub,
    kernData := true,
    hintingData := true }

/-- C7: a successful subset keeps the source's GSUB and GPOS tables verbatim
(hence the full feature-tag sets and all scripts), keeps every output glyph
exactly as it was in the source (same glyph ID, same name — no renumbering, as
a subsequence of the source's glyph list), keeps the `.notdef` glyph and every
recommended glyph (space, etc.) even when not selected, and keeps the kerning
and hinting data. -/
theorem subset_preserves_features (f : Font) (sel : List (String × List (List Char)))
    (g : Font) (h : createFontSubset f sel = some g) :
    g.gsub = f.gsub ∧ g.gpos = f.gpos ∧
    g.glyphs.Sublist f.glyphs ∧
    (∀ gl ∈ f.glyphs, gl.gid = 0 ∨ gl.name ∈ recommendedGlyphNames → gl ∈ g.glyphs) ∧
    g.kernData = f.kernData ∧ g.hintingData = f.hintingData ∧
    g.nameTable = f.nameTable ∧ g.upm = f.upm := by
  unfold createFontSubset at h
  split at h
  · exact absurd h (by simp)
  split at h
  · exact absurd h (by simp)
  split at h
  · exact absurd h (by simp)
  injection h with h
  subst h
  unfold subsetFont subsetterOptionsUsed
  refine ⟨?_, ?_, ?_, ?_, ?_, ?_, rfl, rfl⟩
  · cases f.gsub <;> simp [filterScripts]
  · cases f.gpos <;> simp [filterScripts]
  · simp only [if_true]
    exact List.filter_sublist f.glyphs
  · intro gl hgl hrec
    simp only [if_true, List.mem_filter]
    refine ⟨hgl, decide_eq_true ?_⟩
    rcases hrec with hgid | hname
    · exact Or.inr (Or.inl ⟨by trivial, hgid⟩)
    · exact Or.inr (Or.inr ⟨by trivial, Or.inr hname⟩)
  · simp
  · simp

/-- Witness for C7: subsetting the sample font to the one-character selection
keeps its GSUB table, its `.notdef` glyph, and its unselected `space` glyph. -/
theorem subset_preserves_features_witness :
    ∃ g, createFontSubset sampleFont singleCharSelection = some g ∧
      g.gsub = sampleFont.gsub ∧ (⟨0, ['.', 'n']⟩ : Glyph) ∈ g.glyphs ∧
      (⟨3, "space".toList⟩ : Glyph) ∈ g.glyphs := by
  have h := subset_preserves_features sampleFont singleCharSelection _ rfl
  exact ⟨_, rfl, h.1, h.2.2.2.1 _ (by decide) (Or.inl rfl),
    h.2.2.2.1 _ (by decide) (Or.inr (by decide))⟩

lemma nameKeyMatches_iff {r : NameRecord} {nid pid eid lid : Nat} :
    nameKeyMatches r nid pid eid lid = true ↔
      r.nameID = nid ∧ r.platformID = pid ∧ r.platEncID = eid ∧ r.langID = lid := by
  simp [nameKeyMatches, Bool.and_eq_true, and_assoc]

lemma mem_setName : ∀ {ns : List NameRecord} {s : List Char} {nid pid eid lid : Nat}
    {r : NameRecord}, r ∈ setName ns s nid pid eid lid →
    r = ⟨nid, pid, eid, lid, s⟩ ∨ r ∈ ns := by
  intro ns
  induction ns with
  | nil =>
    intro s nid pid eid lid r h
    simp [setName] at h
    exact Or.inl h
  | cons a as ih =>
    intro s nid pid eid lid r h
    by_cases hk : nameKeyMatches a nid pid eid lid = true
    · simp only [setName, if_pos hk] at h
      rcases List.mem_cons.1 h with h | h
      · left
        obtain ⟨h1, h2, h3, h4⟩ := nameKeyMatches_iff.1 hk
        subst h
        cases a
        simp only [NameRecord.mk.injEq]
        simp only at h1 h2 h3 h4
        exact ⟨h1, h2, h3, h4, trivial⟩
      · exact Or.inr (List.mem_cons_of_mem _ h)
    · simp only [setName, if_neg hk] at h
      rcases List.mem_cons.1 h with h | h
      · exact Or.inr (h ▸ List.mem_cons_self _ _)
      · rcases ih h with h' | h'
        · exact Or.inl h'
        · exact Or.inr (List.mem_cons_of_mem _ h')

lemma setName_self_mem (ns : List NameRecord) (s : List Char) (nid pid eid lid : Nat) :
    (⟨nid, pid, eid, lid, s⟩ : NameRecord) ∈ setName ns s nid pid eid lid := by
  induction ns with
  | nil => simp [setName]
  | cons a as ih =>
    by_cases hk : nameKeyMatches a nid pid eid lid = true
    · simp only [setName, if_pos hk]
      refine List.mem_cons.2 (Or.inl ?_)
      obtain ⟨h1, h2, h3, h4⟩ := nameKeyMatches_iff.1 hk
      cases a
      simp only at h1 h2 h3 h4
      simp [h1, h2, h3, h4]
    · simp only [setName, if_neg hk]
      exact List.mem_cons_of_mem _ ih

lemma setName_keeps (s : List Char) (nid pid eid lid : Nat) {r : NameRecord}
    {ns : List NameRecord} (hk : nameKeyMatches r nid pid eid lid = false)
    (h : r ∈ ns) : r ∈ setName ns s nid pid eid lid := by
  induction ns with
  | nil => cases h
  | cons a as ih =>
    by_cases hka : nameKeyMatches a nid pid eid lid = true
    · simp only [setName, if_pos hka]
      rcases List.mem_cons.1 h with rfl | h

      · simp [hk] at hka
      · exact List.mem_cons_of_mem _ h
    · simp only [setName, if_neg hka]
      rcases List.mem_cons.1 h with rfl | h
      · exact List.mem_cons_self _ _
      · exact List.mem_cons_of_mem _ (ih h)

/-- The twelve name records `_update_font_name` installs for a new name: IDs
1, 4, 6 and 3 then 16 and 17, for both the Windows Unicode US-English triple
and the Macintosh Roman English triple. -/
def rewrittenNameRecords (nm : List Char) : List NameRecord :=
  [⟨1, 3, 1, 0x409, nm⟩, ⟨4, 3, 1, 0x409, nm⟩,
   ⟨6, 3, 1, 0x409, sanitizePostScriptName nm⟩,
   ⟨3, 3, 1, 0x409, nm ++ (": 2023".toList)⟩,
   ⟨1, 1, 0, 0, nm⟩, ⟨4, 1, 0, 0, nm⟩,
   ⟨6, 1, 0, 0, sanitizePostScriptName nm⟩,
   ⟨3, 1, 0, 0, nm ++ (": 2023".toList)⟩,
   ⟨16, 3, 1, 0x409, nm⟩, ⟨17, 3, 1, 0x409, ("Regular".toList)⟩,
   ⟨16, 1, 0, 0, nm⟩, ⟨17, 1, 0, 0, ("Regular".toList)⟩]

lemma setPrimaryNames_keeps (nm : List Char) (p : Nat × Nat × Nat) {r : NameRecord}
    {ns : List NameRecord}
    (h1 : nameKeyMatches r 1 p.1 p.2.1 p.2.2 = false)
    (h4 : nameKeyMatches r 4 p.1 p.2.1 p.2.2 = false)
    (h6 : nameKeyMatches r 6 p.1 p.2.1 p.2.2 = false)
    (h3 : nameKeyMatches r 3 p.1 p.2.1 p.2.2 = false)
    (h : r ∈ ns) : r ∈ setPrimaryNames nm ns p := by
  unfold setPrimaryNames
  exact setName_keeps _ _ _ _ _ h3 (setName_keeps _ _ _ _ _ h6
    (setName_keeps _ _ _ _ _ h4 (setName_keeps _ _ _ _ _ h1 h)))

lemma setPrimaryNames_self1 (nm : List Char) (ns : List NameRecord) (p : Nat × Nat × Nat) :
    (⟨1, p.1, p.2.1, p.2.2, nm⟩ : NameRecord) ∈ setPrimaryNames nm ns p := by
  unfold setPrimaryNames
  exact setName_keeps _ _ _ _ _ rfl (setName_keeps _ _ _ _ _ rfl
    (setName_keeps _ _ _ _ _ rfl (setName_self_mem _ _ _ _ _ _)))

lemma setPrimaryNames_self4 (nm : List Char) (ns : List NameRecord) (p : Nat × Nat × Nat) :
    (⟨4, p.1, p.2.1, p.2.2, nm⟩ : NameRecord) ∈ setPrimaryNames nm ns p := by
  unfold setPrimaryNames
  exact setName_keeps _ _ _ _ _ rfl (setName_keeps _ _ _ _ _ rfl
    (setName_self_mem _ _ _ _ _ _))

lemma setPrimaryNames_self6 (nm : List Char) (ns : List NameRecord) (p : Nat × Nat × Nat) :
    (⟨6, p.1, p.2.1, p.2.2, sanitizePostScriptName nm⟩ : NameRecord) ∈
      setPrimaryNames nm ns p := by
  unfold setPrimaryNames
  exact setName_keeps _ _ _ _ _ rfl (setName_self_mem _ _ _ _ _ _)

lemma setPrimaryNames_self3 (nm : List Char) (ns : List NameRecord) (p : Nat × Nat × Nat) :
    (⟨3, p.1, p.2.1, p.2.2, nm ++ (": 2023".toList)⟩ : NameRecord) ∈
      setPrimaryNames nm ns p := by
  unfold setPrimaryNames
  exact setName_self_mem _ _ _ _ _ _

lemma setTypographicNames_keeps (nm : List Char) (p : Nat × Nat × Nat) {r : NameRecord}
    {ns : List NameRecord}
    (h16 : nameKeyMatches r 16 p.1 p.2.1 p.2.2 = false)
    (h17 : nameKeyMatches r 17 p.1 p.2.1 p.2.2 = false)
    (h : r ∈ ns) : r ∈ setTypographicNames nm ns p := by
  unfold setTypographicNames
  exact setName_keeps _ _ _ _ _ h17 (setName_keeps _ _ _ _ _ h16 h)

lemma setTypographicNames_self16 (nm : List Char) (ns : List NameRecord) (p : Nat × Nat × Nat) :
    (⟨16, p.1, p.2.1, p.2.2, nm⟩ : NameRecord) ∈ setTypographicNames nm ns p := by
  unfold setTypographicNames
  exact setName_keeps _ _ _ _ _ rfl (setName_self_mem _ _ _ _ _ _)

lemma setTypographicNames_self17 (nm : List Char) (ns : List NameRecord) (p : Nat × Nat × Nat) :
    (⟨17, p.1, p.2.1, p.2.2, ("Regular".toList)⟩ : NameRecord) ∈ setTypographicNames nm ns p := by
  unfold setTypographicNames
  exact setName_self_mem _ _ _ _ _ _

lemma mem_setPrimaryNames {nm : List Char} {ns : List NameRecord} {p : Nat × Nat × Nat}
    {r : NameRecord} (h : r ∈ setPrimaryNames nm ns p) :
    r = ⟨1, p.1, p.2.1, p.2.2, nm⟩ ∨ r = ⟨4, p.1, p.2.1, p.2.2, nm⟩ ∨
    r = ⟨6, p.1, p.2.1, p.2.2, sanitizePostScriptName nm⟩ ∨
    r = ⟨3, p.1, p.2.1, p.2.2, nm ++ (": 2023".toList)⟩ ∨ r ∈ ns := by
  unfold setPrimaryNames at h
  rcases mem_setName h with h | h
  · exact Or.inr (Or.inr (Or.inr (Or.inl h)))
  rcases mem_setName h with h | h
  · exact Or.inr (Or.inr (Or.inl h))
  rcases mem_setName h with h | h
  · exact Or.inr (Or.inl h)
  rcases mem_setName h with h | h
  · exact Or.inl h
  exact Or.inr (Or.inr (Or.inr (Or.inr h)))

lemma mem_setTypographicNames {nm : List Char} {ns : List NameRecord} {p : Nat × Nat × Nat}
    {r : NameRecord} (h : r ∈ setTypographicNames nm ns p) :
    r = ⟨16, p.1, p.2.1, p.2.2, nm⟩ ∨ r = ⟨17, p.1, p.2.1, p.2.2, ("Regular".toList)⟩ ∨
    r ∈ ns := by
  unfold setTypographicNames at h
  rcases mem_setName h with h | h
  · exact Or.inr (Or.inl h)
  rcases mem_setName h with h | h
  · exact Or.inl h
  exact Or.inr (Or.inr h)

/-- C6 (amended): when the font has a name table, `applyName` installs exactly
the twelve expected records (IDs 1/4/16 carrying the new name, ID 6 its
space-and-hyphen-stripped variant, ID 3 the name with a `: 2023` suffix, ID 17
the literal `Regular`, each for both platform triples), and every record of
the result is either one of those twelve or an untouched original record whose
ID is outside {1, 4, 6, 16, 17} — so pre-existing ID-3 records on other
platform triples survive with their old values; when the font has no name
table the operation changes nothing. -/
theorem update_font_name_spec (f : Font) (ns : List NameRecord) (nm : List Char)
    (h : f.nameTable = some ns) :
    (∃ ns', (updateFontName f nm).nameTable = some ns' ∧
      (∀ r ∈ rewrittenNameRecords nm, r ∈ ns') ∧
      (∀ r ∈ ns', r ∈ rewrittenNameRecords nm ∨
        (r ∈ ns ∧ r.nameID ∉ ([1, 4, 6, 16, 17] : List Nat)))) ∧
    (∀ g : Font, g.nameTable = none → updateFontName g nm = g) := by
  have hnoop : ∀ g : Font, g.nameTable = none → updateFontName g nm = g := by
    intro g hg
    unfold updateFontName
    rw [hg]
  refine ⟨?_, hnoop⟩
  refine ⟨setTypographicNames nm (setTypographicNames nm
      ((setPrimaryNames nm (setPrimaryNames nm
        (ns.filter (fun r => decide (r.nameID ∉ ([1, 4, 6] : List Nat)))) (3, 1, 0x409))
        (1, 0, 0)).filter (fun r => decide (r.nameID ≠ 16 ∧ r.nameID ≠ 17)))
      (3, 1, 0x409)) (1, 0, 0), ?_, ?_, ?_⟩
  · unfold updateFontName
    rw [h]
    simp only [platformTriples, List.foldl_cons, List.foldl_nil]
  · intro r hr
    simp only [rewrittenNameRecords, List.mem_cons, List.not_mem_nil, or_false] at hr
    rcases hr with rfl | rfl | rfl | rfl | rfl | rfl | rfl | rfl | rfl | rfl | rfl | rfl
    · exact setTypographicNames_keeps _ _ rfl rfl (setTypographicNames_keeps _ _ rfl rfl
        (List.mem_filter.2 ⟨setPrimaryNames_keeps _ _ rfl rfl rfl rfl
          (setPrimaryNames_self1 _ _ _), rfl⟩))
    · exact setTypographicNames_keeps _ _ rfl rfl (setTypographicNames_keeps _ _ rfl rfl
        (List.mem_filter.2 ⟨setPrimaryNames_keeps _ _ rfl rfl rfl rfl
          (setPrimaryNames_self4 _ _ _), rfl⟩))
    · exact setTypographicNames_keeps _ _ rfl rfl (setTypographicNames_keeps _ _ rfl rfl
        (List.mem_filter.2 ⟨setPrimaryNames_keeps _ _ rfl rfl rfl rfl
          (setPrimaryNames_self6 _ _ _), rfl⟩))
    · exact setTypographicNames_keeps _ _ rfl rfl (setTypographicNames_keeps _ _ rfl rfl
        (List.mem_filter.2 ⟨setPrimaryNames_keeps _ _ rfl rfl rfl rfl
          (setPrimaryNames_self3 _ _ _), rfl⟩))
    · exact setTypographicNames_keeps _ _ rfl rfl (setTypographicNames_keeps _ _ rfl rfl
        (List.mem_filter.2 ⟨setPrimaryNames_self1 _ _ _, rfl⟩))
    · exact setTypographicNames_keeps _ _ rfl rfl (setTypographicNames_keeps _ _ rfl rfl
        (List.mem_filter.2 ⟨setPrimaryNames_self4 _ _ _, rfl⟩))
    · exact setTypographicNames_keeps _ _ rfl rfl (setTypographicNames_keeps _ _ rfl rfl
        (List.mem_filter.2 ⟨setPrimaryNames_self6 _ _ _, rfl⟩))
    · exact setTypographicNames_keeps _ _ rfl rfl (setTypographicNames_keeps _ _ rfl rfl
        (List.mem_filter.2 ⟨setPrimaryNames_self3 _ _ _, rfl⟩))
    · exact setTypographicNames_keeps _ _ rfl rfl (setTypographicNames_self16 _ _ _)
    · exact setTypographicNames_keeps _ _ rfl rfl (setTypographicNames_self17 _ _ _)
    · exact setTypographicNames_self16 _ _ _
    · exact setTypographicNames_self17 _ _ _
  · intro r hr
    rcases mem_setTypographicNames hr with rfl | rfl | hr
    · left; simp [rewrittenNameRecords]
    · left; simp [rewrittenNameRecords]
    rcases mem_setTypographicNames hr with rfl | rfl | hr
    · left; simp [rewrittenNameRecords]
    · left; simp [rewrittenNameRecords]
    obtain ⟨hr, hp17⟩ := List.mem_filter.1 hr
    rcases mem_setPrimaryNames hr with rfl | rfl | rfl | rfl | hr
    · left; simp [rewrittenNameRecords]
    · left; simp [rewrittenNameRecords]
    · left; simp [rewrittenNameRecords]
    · left; simp [rewrittenNameRecords]
    rcases mem_setPrimaryNames hr with rfl | rfl | rfl | rfl | hr
    · left; simp [rewrittenNameRecords]
    · left; simp [rewrittenNameRecords]
    · left; simp [rewrittenNameRecords]
    · left; simp [rewrittenNameRecords]
    obtain ⟨hr, hp146⟩ := List.mem_filter.1 hr
    right
    refine ⟨hr, ?_⟩
    have h1 := of_decide_eq_true hp146
    have h2 := of_decide_eq_true hp17
    simp only [List.mem_cons, List.not_mem_nil, or_false, not_or] at h1 h2 ⊢
    tauto

/-- A font whose only name record is a unique-identifier (ID 3) record on the
Windows Korean platform triple — a triple `_update_font_name` never touches. -/
def koreanId3Font : Font :=
  { emptyFont with nameTable := some [⟨3, 3, 1, 0x412, ['O', 'L', 'D']⟩] }

/-- Witness for C6 (amended): on a concrete font the rewrite installs the new
family record, and a font without a name table is returned unchanged. -/
theorem update_font_name_spec_witness :
    updateFontName emptyFont ['N'] = emptyFont ∧
    (∃ ns', (updateFontName koreanId3Font ['N']).nameTable = some ns' ∧
      (⟨1, 3, 1, 0x409, ['N']⟩ : NameRecord) ∈ ns') := by
  have h := update_font_name_spec koreanId3Font [⟨3, 3, 1, 0x412, ['O', 'L', 'D']⟩] ['N'] rfl
  obtain ⟨⟨ns', hns', hcomp, _⟩, hnoop⟩ := h
  exact ⟨hnoop emptyFont rfl, ⟨ns', hns', hcomp _ (by simp [rewrittenNameRecords])⟩⟩

/-- Counterexample for C6 as stated: the pre-existing ID-3 (unique identifier)
record on the Windows Korean triple survives `applyName` with its old value —
the rewrite does not remove all pre-existing records with ID 3, leaving an
orphaned old-name record. -/
theorem orphan_unique_id_record_cex :
    (⟨3, 3, 1, 0x412, ['O', 'L', 'D']⟩ : NameRecord) ∈
      ((updateFontName koreanId3Font ['N', 'e', 'w']).nameTable.getD []) := by
  decide

end FontMerge
